import Mathlib

/-!
Verification development for the CodeGenie session-orchestration layer.

The definitions below are a shallow embedding of the TypeScript source:
  * a JSON value model and parser standing in for `JSON.parse`,
  * the streamed-response loop of `CodeChat` (the id-addressed variant,
    `handleSendMessage` in the uuid-based chat component),
  * the `EventSource`-based chat variant (`CodeChat.tsx`) with its
    positional last-message update,
  * the indexing-status polling loop of `Index.tsx`,
  * the `CodeIndicesService` fetch wrappers of `codeIndicesService.ts`.

Strings are represented as `List Char` (`Str`) so that frame splitting and
parsing reduce definitionally.
-/

/-- Character-list strings; the embedding of JS strings. -/
abbrev Str := List Char

/-- JSON values as produced by `JSON.parse` (numbers restricted to integers,
which covers every frame shape the protocol uses). -/
inductive JVal where
  | null : JVal
  | bool (b : Bool) : JVal
  | num (n : Int) : JVal
  | str (s : Str) : JVal
  | arr (xs : List JVal) : JVal
  | obj (fields : List (Str × JVal)) : JVal

/-- Skip JSON whitespace, as `JSON.parse` does between tokens. -/
def skipWs : Str → Str
  | [] => []
  | c :: rest => if c = ' ' ∨ c = '\n' ∨ c = '\t' ∨ c = '\r' then skipWs rest else c :: rest

/-- Decode one escape character after a backslash in a JSON string literal
(`"`, `\` and `/` map to themselves; `n`, `t`, `r`, `b`, `f` to their
control characters; anything else is a parse error). -/
def escChar (e : Char) : Option Char :=
  if e = 'n' then some '\n'
  else if e = 't' then some '\t'
  else if e = 'r' then some '\r'
  else if e = 'b' then some (Char.ofNat 8)
  else if e = 'f' then some (Char.ofNat 12)
  else if e = '"' ∨ e = '\\' ∨ e = '/' then some e
  else none

/-- Parse the body of a JSON string literal (after the opening quote) up to
the closing quote; rejects raw control characters as `JSON.parse` does. -/
def parseStringBody : Str → Option (Str × Str)
  | [] => none
  | c :: rest =>
    if c = '"' then some ([], rest)
    else if c = '\\' then
      match rest with
      | [] => none
      | e :: rest2 =>
        match escChar e with
        | some d => (parseStringBody rest2).map (fun p => (d :: p.1, p.2))
        | none => none
    else if c.toNat < 32 then none
    else (parseStringBody rest).map (fun p => (c :: p.1, p.2))

/-- Fold a digit run into a natural number. -/
def digitsToNat (ds : Str) : Nat :=
  ds.foldl (fun a c => a * 10 + (c.toNat - 48)) 0

/-- Parse a nonempty run of decimal digits. -/
def parseDigits (cs : Str) : Option (Nat × Str) :=
  let ds := cs.takeWhile Char.isDigit
  if ds.isEmpty then none else some (digitsToNat ds, cs.dropWhile Char.isDigit)

/-- Parse an integer JSON number (optional leading minus). -/
def parseNum (cs : Str) : Option (JVal × Str) :=
  match cs with
  | '-' :: rest => (parseDigits rest).map (fun p => (JVal.num (-(p.1 : Int)), p.2))
  | _ => (parseDigits cs).map (fun p => (JVal.num (p.1 : Int), p.2))

/-- Parse one `"key": value` object member, `pv` being the value parser. -/
def parseMemberWith (pv : Str → Option (JVal × Str)) (cs : Str) :
    Option ((Str × JVal) × Str) :=
  match cs with
  | '"' :: rest =>
    match parseStringBody rest with
    | some (key, rest1) =>
      match skipWs rest1 with
      | ':' :: rest2 => (pv (skipWs rest2)).map (fun p => ((key, p.1), p.2))
      | _ => none
    | none => none
  | _ => none

/-- Parse the remaining members of an object after the first one. -/
def parseObjRestWith (pv : Str → Option (JVal × Str)) :
    Nat → List (Str × JVal) → Str → Option (JVal × Str)
  | 0, _, _ => none
  | fuel + 1, acc, cs =>
    match skipWs cs with
    | '}' :: rest => some (JVal.obj acc.reverse, rest)
    | ',' :: rest =>
      match parseMemberWith pv (skipWs rest) with
      | some (kv, rest1) => parseObjRestWith pv fuel (kv :: acc) rest1
      | none => none
    | _ => none

/-- Parse an object body after the opening brace. -/
def parseObjWith (pv : Str → Option (JVal × Str)) (fuel : Nat) (cs : Str) :
    Option (JVal × Str) :=
  match skipWs cs with
  | '}' :: rest => some (JVal.obj [], rest)
  | _ =>
    match parseMemberWith pv (skipWs cs) with
    | some (kv, rest1) => parseObjRestWith pv fuel [kv] rest1
    | none => none

/-- Parse the remaining elements of an array after the first one. -/
def parseArrRestWith (pv : Str → Option (JVal × Str)) :
    Nat → List JVal → Str → Option (JVal × Str)
  | 0, _, _ => none
  | fuel + 1, acc, cs =>
    match skipWs cs with
    | ']' :: rest => some (JVal.arr acc.reverse, rest)
    | ',' :: rest =>
      match pv (skipWs rest) with
      | some (v, rest1) => parseArrRestWith pv fuel (v :: acc) rest1
      | none => none
    | _ => none

/-- Parse an array body after the opening bracket. -/
def parseArrWith (pv : Str → Option (JVal × Str)) (fuel : Nat) (cs : Str) :
    Option (JVal × Str) :=
  match skipWs cs with
  | ']' :: rest => some (JVal.arr [], rest)
  | _ =>
    match pv (skipWs cs) with
    | some (v, rest1) => parseArrRestWith pv fuel [v] rest1
    | none => none

/-- Fuel-indexed JSON value parser. -/
def parseVal : Nat → Str → Option (JVal × Str)
  | 0, _ => none
  | fuel + 1, cs =>
    match skipWs cs with
    | '{' :: rest => parseObjWith (parseVal fuel) (fuel + 1) (skipWs rest)
    | '[' :: rest => parseArrWith (parseVal fuel) (fuel + 1) (skipWs rest)
    | '"' :: rest => (parseStringBody rest).map (fun p => (JVal.str p.1, p.2))
    | 't' :: 'r' :: 'u' :: 'e' :: rest => some (JVal.bool true, rest)
    | 'f' :: 'a' :: 'l' :: 's' :: 'e' :: rest => some (JVal.bool false, rest)
    | 'n' :: 'u' :: 'l' :: 'l' :: rest => some (JVal.null, rest)
    | cs2 => parseNum cs2

/-- The embedding of `JSON.parse`: parse a whole value; anything but trailing
whitespace after it is a parse error. -/
def jsonParse (cs : Str) : Option JVal :=
  match parseVal (cs.length + 2) cs with
  | some (v, rest) => if (skipWs rest).isEmpty then some v else none
  | none => none

/-- Property access `v.key`: `some` field value on objects, `none`
(JS `undefined`) otherwise. -/
def jGet (v : JVal) (key : Str) : Option JVal :=
  match v with
  | JVal.obj fields => fields.lookup key
  | _ => none

/-- JS truthiness of a property-access result (`undefined`, `null`, `false`,
`0` and `""` are falsy). -/
def jTruthy : Option JVal → Bool
  | none => false
  | some JVal.null => false
  | some (JVal.bool b) => b
  | some (JVal.num n) => decide (n ≠ 0)
  | some (JVal.str s) => !s.isEmpty
  | some (JVal.arr _) => true
  | some (JVal.obj _) => true

mutual

/-- JS string coercion used by `responseText += data.chunk` and
`content += data.chunk`. -/
def jsToString : JVal → Str
  | JVal.null => 'n' :: 'u' :: 'l' :: 'l' :: []
  | JVal.bool true => 't' :: 'r' :: 'u' :: 'e' :: []
  | JVal.bool false => 'f' :: 'a' :: 'l' :: 's' :: 'e' :: []
  | JVal.num n => (toString n).data
  | JVal.str s => s
  | JVal.arr xs => ((jsToStringList xs).intersperse (',' :: [])).flatten
  | JVal.obj _ =>
    '[' :: 'o' :: 'b' :: 'j' :: 'e' :: 'c' :: 't' :: ' ' ::
      'O' :: 'b' :: 'j' :: 'e' :: 'c' :: 't' :: ']' :: []

/-- Coerce each array element, as `Array.prototype.toString` does. -/
def jsToStringList : List JVal → List Str
  | [] => []
  | v :: vs => jsToString v :: jsToStringList vs

end

/-- Coercion of a property access to a string (`undefined` never reaches the
concatenations in the source because it is truthiness-guarded). -/
def jOptToString : Option JVal → Str
  | some v => jsToString v
  | none => []

/-! ## Conversation state (ChatMessage / ChatMessageType) -/

/-- Message role, `'user' | 'assistant'` in both chat variants. -/
inductive Role where
  | user : Role
  | assistant : Role
deriving DecidableEq

/-- One chat turn (`ChatMessageType` in the uuid variant, `ChatMessage` in
`types/chat.ts`): id, content, role, timestamp, loading flag, and the
optional relevant-file list. -/
structure ChatMsg where
  id : Nat
  content : Str
  role : Role
  timestamp : Nat
  isLoading : Bool := false
  relevantFiles : Option (List String) := none
deriving DecidableEq

/-- The id-addressed fragment update of the uuid chat variant: map over the
conversation, replacing the content of the turn whose id matches and
clearing its loading flag; every other turn is untouched. -/
def applyChunkById (msgs : List ChatMsg) (tid : Nat) (newContent : Str) : List ChatMsg :=
  msgs.map fun m =>
    if m.id = tid then { m with content := newContent, isLoading := false } else m

/-- The id-addressed relevant-files update performed after the stream
completes in the uuid chat variant. -/
def applyRelevantFilesById (msgs : List ChatMsg) (tid : Nat) (files : List String) :
    List ChatMsg :=
  msgs.map fun m =>
    if m.id = tid then { m with relevantFiles := some files } else m

/-! ## The uuid chat variant: streamed-response reader loop -/

/-- State threaded through the reader loop: the accumulated `responseText`
and the conversation (`messages`). -/
structure StreamState where
  responseText : Str
  msgs : List ChatMsg
deriving DecidableEq

/-- The `data: ` record prefix tested by `line.startsWith('data: ')`. -/
def dataPrefix : Str := 'd' :: 'a' :: 't' :: 'a' :: ':' :: ' ' :: []

/-- `line.startsWith('data: ')` plus `line.substring(6)`: the payload of a
`data: ` record, or `none` for any other line. -/
def dataPayload : Str → Option Str
  | 'd' :: 'a' :: 't' :: 'a' :: ':' :: ' ' :: rest => some rest
  | _ => none

/-- One iteration of the per-line loop in the uuid variant's
`handleSendMessage`: parse the payload (parse failures are caught and
logged); on a truthy `chunk` extend `responseText` and rewrite the target
turn by id; a truthy `error` raises an `Error` that the same catch block
swallows, so the state is unchanged; `done` and unknown shapes do nothing. -/
def processLine (tid : Nat) (st : StreamState) (line : Str) : StreamState :=
  match dataPayload line with
  | none => st
  | some payload =>
    match jsonParse payload with
    | none => st
    | some v =>
      if jTruthy (jGet v ('c' :: 'h' :: 'u' :: 'n' :: 'k' :: [])) then
        let rt := st.responseText ++ jOptToString (jGet v ('c' :: 'h' :: 'u' :: 'n' :: 'k' :: []))
        { responseText := rt, msgs := applyChunkById st.msgs tid rt }
      else if jTruthy (jGet v ('e' :: 'r' :: 'r' :: 'o' :: 'r' :: [])) then st
      else if jTruthy (jGet v ('d' :: 'o' :: 'n' :: 'e' :: [])) then st
      else st

/-- Process a list of already-split frame lines in order. -/
def processLines (tid : Nat) (st : StreamState) (lines : List Str) : StreamState :=
  lines.foldl (processLine tid) st

/-- Prepend a character to the first group of a split result. -/
def consHead (c : Char) : List Str → List Str
  | [] => [[c]]
  | s :: ss => (c :: s) :: ss

/-- Split one decoded transport read on blank lines, the embedding of
`chunk.split('\n\n')`. -/
def splitBlank : Str → List Str
  | [] => [[]]
  | '\n' :: '\n' :: rest => [] :: splitBlank rest
  | c :: rest => consHead c (splitBlank rest)

/-- Process one transport read: split it on blank lines and run the
per-line loop on each piece, exactly as the source does per `reader.read()`.
No state other than `responseText` and the conversation survives between
reads; in particular there is no partial-frame buffer. -/
def processRead (tid : Nat) (st : StreamState) (read : Str) : StreamState :=
  processLines tid st (splitBlank read)

/-- Process a whole sequence of transport reads. -/
def processReads (tid : Nat) (st : StreamState) (reads : List Str) : StreamState :=
  reads.foldl (processRead tid) st

/-- Response shape of the buffered `/query` call (`LLMResponse`). -/
structure LLMResponse where
  success : Bool
  response : String
  model : Option String := none
  relevant_files : Option (List String) := none
  error : Option String := none
deriving DecidableEq

/-- The follow-up after the stream ends in the uuid variant: one buffered
query; when it reports success and carries a `relevant_files` value (any
array is truthy, even an empty one) the target turn's relevant files are
set by id; otherwise the conversation is left alone. -/
def applyFollowUp (tid : Nat) (resp : LLMResponse) (msgs : List ChatMsg) : List ChatMsg :=
  match resp.relevant_files with
  | some files => if resp.success then applyRelevantFilesById msgs tid files else msgs
  | none => msgs

/-- The normal (non-throwing) path of the uuid variant's
`handleSendMessage` after the user/placeholder pair exists: consume the
stream reads, then apply the buffered follow-up response. -/
def part002Run (tid : Nat) (msgs0 : List ChatMsg) (reads : List Str)
    (follow : LLMResponse) : List ChatMsg :=
  applyFollowUp tid follow (processReads tid { responseText := [], msgs := msgs0 } reads).msgs

/-! ## Decoded protocol events (the StreamDecoder view of the same loop) -/

/-- Typed protocol events decoded from frames. -/
inductive StreamEvent where
  | contentFragment (text : Str) : StreamEvent
  | failure (message : Str) : StreamEvent
  | completed : StreamEvent
deriving DecidableEq

/-- The pure frame-to-event mapping realised by the dispatch in the uuid
variant's per-line loop (branch order `chunk`, `error`, `done`); `none` for
non-`data:` lines, parse failures and unknown shapes. -/
def decodeFrame (line : Str) : Option StreamEvent :=
  match dataPayload line with
  | none => none
  | some payload =>
    match jsonParse payload with
    | none => none
    | some v =>
      if jTruthy (jGet v ('c' :: 'h' :: 'u' :: 'n' :: 'k' :: [])) then
        some (StreamEvent.contentFragment
          (jOptToString (jGet v ('c' :: 'h' :: 'u' :: 'n' :: 'k' :: []))))
      else if jTruthy (jGet v ('e' :: 'r' :: 'r' :: 'o' :: 'r' :: [])) then
        some (StreamEvent.failure
          (jOptToString (jGet v ('e' :: 'r' :: 'r' :: 'o' :: 'r' :: []))))
      else if jTruthy (jGet v ('d' :: 'o' :: 'n' :: 'e' :: [])) then
        some StreamEvent.completed
      else none

/-- A malformed frame: a `data: ` record whose payload fails to parse. -/
def isMalformedFrame (line : Str) : Bool :=
  match dataPayload line with
  | some payload => (jsonParse payload).isNone
  | none => false

/-! ## The EventSource chat variant (`CodeChat.tsx`): positional update -/

/-- JS whitespace for `String.prototype.trim`. -/
def isJsWs (c : Char) : Bool := c = ' ' ∨ c = '\n' ∨ c = '\t' ∨ c = '\r'

/-- The embedding of `input.trim()`. -/
def jsTrim (s : Str) : Str :=
  ((s.dropWhile isJsWs).reverse.dropWhile isJsWs).reverse

/-- Component state of the EventSource variant: the conversation, the input
box, the component-level loading flag, the component-level relevant-files
state, and a count of streams opened (one per `new EventSource`). -/
structure TsxChatState where
  messages : List ChatMsg
  input : Str
  isLoading : Bool
  relevantFiles : Option JVal
  streamsOpened : Nat

/-- The chunk branch of `eventSource.onmessage` in `CodeChat.tsx`: take the
LAST message of the list and, when it is an assistant turn, append the
chunk to its content and clear its loading flag. An empty list makes the
member access throw, which the surrounding catch swallows. This selects a
turn by position, not by id. -/
def updateLastAssistant (msgs : List ChatMsg) (text : Str) : List ChatMsg :=
  match msgs.getLast? with
  | none => msgs
  | some m =>
    if m.role = Role.assistant then
      msgs.dropLast ++ [{ m with content := m.content ++ text, isLoading := false }]
    else msgs

/-- One `eventSource.onmessage` callback of `CodeChat.tsx`: parse failures
are caught (toast only); dispatch order is `relevant_files`, `chunk`,
`error`, `done`. Only the chunk branch touches the conversation; the error
and done branches clear the component-level flag only. -/
def tsxOnMessage (st : TsxChatState) (payload : Str) : TsxChatState :=
  match jsonParse payload with
  | none => st
  | some v =>
    if jTruthy (jGet v ('r' :: 'e' :: 'l' :: 'e' :: 'v' :: 'a' :: 'n' :: 't' :: '_' ::
        'f' :: 'i' :: 'l' :: 'e' :: 's' :: [])) then
      { st with relevantFiles := jGet v ('r' :: 'e' :: 'l' :: 'e' :: 'v' :: 'a' :: 'n' ::
          't' :: '_' :: 'f' :: 'i' :: 'l' :: 'e' :: 's' :: []) }
    else if jTruthy (jGet v ('c' :: 'h' :: 'u' :: 'n' :: 'k' :: [])) then
      let t := jOptToString (jGet v ('c' :: 'h' :: 'u' :: 'n' :: 'k' :: []))
      { st with messages := updateLastAssistant st.messages t }
    else if jTruthy (jGet v ('e' :: 'r' :: 'r' :: 'o' :: 'r' :: [])) then
      { st with isLoading := false }
    else if jTruthy (jGet v ('d' :: 'o' :: 'n' :: 'e' :: [])) then
      { st with isLoading := false }
    else st

/-- `handleSendMessage` of `CodeChat.tsx` up to opening the stream: the
guard `!input.trim() || isLoading` rejects the submission outright;
otherwise a user turn and a loading assistant placeholder are appended
(ids `Date.now()` and `Date.now()+1`, modelled by `now`), the input is
cleared, the loading flag set, and one `EventSource` stream is opened. -/
def tsxHandleSendMessage (st : TsxChatState) (now : Nat) : TsxChatState :=
  if (jsTrim st.input).isEmpty ∨ st.isLoading then st
  else
    { messages := st.messages ++
        [ { id := now, content := st.input, role := Role.user,
            timestamp := now, isLoading := false },
          { id := now + 1, content := [], role := Role.assistant,
            timestamp := now, isLoading := true } ],
      input := [],
      isLoading := true,
      relevantFiles := st.relevantFiles,
      streamsOpened := st.streamsOpened + 1 }

/-- Number of assistant turns currently marked loading. -/
def countLoadingAssistants (msgs : List ChatMsg) : Nat :=
  (msgs.filter fun m => decide (m.role = Role.assistant) && m.isLoading).length

/-! ## StatusPoller (`Index.tsx` polling `useEffect`) -/

/-- `stats` sub-object of an indexing status report. -/
structure IndexStats where
  total_files : Option Nat := none
  indexed_files : Option Nat := none
  skipped_files : Option Nat := none
  binary_files : Option Nat := none
  by_language : List (String × Nat) := []
deriving DecidableEq

/-- One `/indexing-status` response (`IndexingStatus` in
`codeIndicesService.ts`). -/
structure IndexingStatus where
  is_indexing : Bool
  progress : Nat
  message : String
  stats : IndexStats := {}
  error : Option String := none
deriving DecidableEq

/-- The completion test of the polling tick:
`status.progress === 100 && !status.is_indexing`. This is the only
condition the tick inspects; `status.error` is never read. -/
def pollDone (s : IndexingStatus) : Bool :=
  decide (s.progress = 100) && !s.is_indexing

/-- Observable outcome of a polling run over a sequence of responses. -/
structure PollRun where
  /-- statuses pushed to `setIndexingStatus`, in order -/
  published : List IndexingStatus
  /-- status requests issued (= ticks that consumed a response) -/
  requests : Nat
  /-- `getFileStructure` calls issued -/
  treeFetches : Nat
  /-- whether `setSelectedTab('chat')` fired (the READY transition) -/
  ready : Bool
  /-- whether `clearInterval` stopped the poller -/
  stopped : Bool
deriving DecidableEq

/-- The polling `useEffect` of `Index.tsx`, run against a sequence of
responses: each tick fetches a status, publishes it, and when
`progress === 100 && !is_indexing` clears the interval, fetches the file
tree once, and switches to the chat tab. An exhausted list with no
terminal response means the poller is still running. -/
def runPoller : List IndexingStatus → PollRun
  | [] => { published := [], requests := 0, treeFetches := 0, ready := false, stopped := false }
  | s :: rest =>
    if pollDone s then
      { published := [s], requests := 1, treeFetches := 1, ready := true, stopped := true }
    else
      let r := runPoller rest
      { published := s :: r.published, requests := r.requests + 1,
        treeFetches := r.treeFetches, ready := r.ready, stopped := r.stopped }

/-! ## CodeIndicesService fetch wrappers (`codeIndicesService.ts`) -/

/-- Outcome of one `fetch` from the service's point of view: the promise
rejects with a message, or an HTTP response arrives whose body either
parses to a value or makes `response.json()` throw. -/
inductive Transport (α : Type) where
  | netError (msg : String) : Transport α
  | http (ok : Bool) (status : Nat) (body : Except String α) : Transport α

/-- The `try` block of `getIndexingStatus`: reject on network failure,
throw `HTTP error <status>` when `!response.ok`, otherwise the parsed
body. -/
def getIndexingStatusTry : Transport IndexingStatus → Except String IndexingStatus
  | Transport.netError m => Except.error m
  | Transport.http ok status body =>
    if !ok then Except.error ("HTTP error " ++ toString status) else body

/-- `CodeIndicesService.getIndexingStatus`: any thrown error is caught and
converted into a fallback status carrying the failure message; the caller
never sees an exception. -/
def getIndexingStatus (t : Transport IndexingStatus) : IndexingStatus :=
  match getIndexingStatusTry t with
  | Except.ok v => v
  | Except.error m =>
    { is_indexing := false, progress := 0,
      message := "Failed to get indexing status: " ++ m,
      stats := {}, error := some m }

/-- The `try` block of the non-streaming branch of `queryCode`. -/
def queryCodeTry : Transport LLMResponse → Except String LLMResponse
  | Transport.netError m => Except.error m
  | Transport.http ok status body =>
    if !ok then Except.error ("HTTP error " ++ toString status) else body

/-- `CodeIndicesService.queryCode` with `stream=false`: any thrown error is
caught and converted into an unsuccessful `LLMResponse` carrying the
failure message. -/
def queryCode (t : Transport LLMResponse) : LLMResponse :=
  match queryCodeTry t with
  | Except.ok v => v
  | Except.error m => { success := false, response := "", error := some m }

/-! ## Frame builders and demo inputs -/

/-- JSON payload `{"chunk":"<s>"}` around a raw string `s`. -/
def chunkPayload (s : Str) : Str :=
  '{' :: '"' :: 'c' :: 'h' :: 'u' :: 'n' :: 'k' :: '"' :: ':' :: '"' ::
    (s ++ '"' :: '}' :: [])

/-- JSON payload `{"error":"<s>"}`. -/
def errorPayload (s : Str) : Str :=
  '{' :: '"' :: 'e' :: 'r' :: 'r' :: 'o' :: 'r' :: '"' :: ':' :: '"' ::
    (s ++ '"' :: '}' :: [])

/-- JSON payload `{"done":true}`. -/
def donePayload : Str :=
  '{' :: '"' :: 'd' :: 'o' :: 'n' :: 'e' :: '"' :: ':' :: 't' :: 'r' :: 'u' :: 'e' :: '}' :: []

/-- The blank-line record separator of the SSE framing. -/
def recordSep : Str := '\n' :: '\n' :: []

/-- A complete `data: <payload>` record followed by its separator. -/
def sseRecord (p : Str) : Str := dataPrefix ++ p ++ recordSep

/-- A `data: `-prefixed frame line (one piece of a split read). -/
def mkChunkFrame (s : Str) : Str := dataPrefix ++ chunkPayload s

/-- A user turn used in the concrete scenarios. -/
def demoUser (i : Nat) (text : Str) : ChatMsg :=
  { id := i, content := text, role := Role.user, timestamp := 0 }

/-- A freshly appended assistant placeholder used in the concrete
scenarios: empty content, loading. -/
def demoPlaceholder (i : Nat) : ChatMsg :=
  { id := i, content := [], role := Role.assistant, timestamp := 0, isLoading := true }

/-- The conversation targeted by the stream in the failure scenarios. -/
def c3Msgs : List ChatMsg := [ demoUser 1 ('q' :: []), demoPlaceholder 2 ]

/-- A follow-up buffered response that reports no success. -/
def c3Follow : LLMResponse := { success := false, response := "" }

/-- A follow-up buffered response carrying an authoritative file list. -/
def c7Follow : LLMResponse :=
  { success := true, response := "ok", relevant_files := some ["src/auth.ts"] }

/-- Initial `CodeChat.tsx` component state with a pending question typed. -/
def c5Start : TsxChatState :=
  { messages := [], input := ("how does auth work").data, isLoading := false,
    relevantFiles := none, streamsOpened := 0 }

/-- State after the first submission (ids 100 and 101). -/
def c5AfterFirst : TsxChatState := tsxHandleSendMessage c5Start 100

/-- State after the stream delivers `{"error":"boom"}`: the component flag
clears but turn 101 keeps loading. -/
def c5AfterError : TsxChatState :=
  tsxOnMessage c5AfterFirst (errorPayload ('b' :: 'o' :: 'o' :: 'm' :: []))

/-- State after typing and submitting a second question (ids 200, 201). -/
def c5AfterSecond : TsxChatState :=
  tsxHandleSendMessage { c5AfterError with input := ("second question").data } 200

/-- A poll response carrying a backend error while indexing is mid-flight. -/
def c8ErrStatus : IndexingStatus :=
  { is_indexing := true, progress := 50, message := "indexing",
    error := some "boom" }

/-- The poll response after the erroring one. -/
def c8NextStatus : IndexingStatus :=
  { is_indexing := true, progress := 60, message := "indexing" }

/-- Stream state before any frame arrives in the split-read scenarios. -/
def c4Start : StreamState := { responseText := [], msgs := c3Msgs }

/-- First transport read: a record cut before its closing brace. -/
def c4ReadA : Str :=
  dataPrefix ++
    ('{' :: '"' :: 'c' :: 'h' :: 'u' :: 'n' :: 'k' :: '"' :: ':' :: '"' :: 'A' :: '"' :: [])

/-- Second transport read: the rest of the record and its separator. -/
def c4ReadB : Str := '}' :: '\n' :: '\n' :: []

/-- The intermediate poll response of the §8 scenario (`progress` 40). -/
def c2Mid : IndexingStatus :=
  { is_indexing := true, progress := 40, message := "Indexing files..." }

/-- The completing poll response of the §8 scenario. -/
def c2Done : IndexingStatus :=
  { is_indexing := false, progress := 100, message := "Indexing complete" }

/-- A whole transport payload assembled from complete records. -/
def recordsRead (ps : List Str) : Str := (ps.map sseRecord).flatten

/-- The stream state at the start of the C9 scenario. -/
def c9Start : StreamState := { responseText := [], msgs := c3Msgs }

/-- Strings that need no escaping inside a JSON string literal. -/
def PlainStr (s : Str) : Prop :=
  ∀ c ∈ s, c ≠ '"' ∧ c ≠ '\\' ∧ ¬ c.toNat < 32

instance (s : Str) : Decidable (PlainStr s) := by
  unfold PlainStr
  infer_instance

/-! ## C1: turn addressing -/

/-- A conversation that has grown while the first exchange was still
streaming: the first assistant turn (id 2) is the stream's target, a
second user/assistant pair (ids 3 and 4) sits after it. -/
def c1Conv : List ChatMsg :=
  [ demoUser 1 ('q' :: '1' :: []), demoPlaceholder 2,
    demoUser 3 ('q' :: '2' :: []), demoPlaceholder 4 ]

/-- `CodeChat.tsx` component state mid-stream over `c1Conv`. -/
def c1State : TsxChatState :=
  { messages := c1Conv, input := [], isLoading := true,
    relevantFiles := none, streamsOpened := 2 }

/-- C1 (code_bug): the `EventSource` chat variant's chunk branch selects
the turn at the LAST position, so a fragment belonging to the stream of
turn id 2 lands on turn id 4, while the id-addressed update of the uuid
variant mutates exactly turn id 2. -/
theorem chunk_update_selects_by_position_not_id :
    (tsxOnMessage c1State (chunkPayload ('X' :: []))).messages =
      [ demoUser 1 ('q' :: '1' :: []), demoPlaceholder 2,
        demoUser 3 ('q' :: '2' :: []),
        { demoPlaceholder 4 with content := 'X' :: [], isLoading := false } ]
    ∧ applyChunkById c1Conv 2 ('X' :: []) =
      [ demoUser 1 ('q' :: '1' :: []),
        { demoPlaceholder 2 with content := 'X' :: [], isLoading := false },
        demoUser 3 ('q' :: '2' :: []), demoPlaceholder 4 ] := by
  exact ⟨rfl, rfl⟩

/-! ## C3: failure frames -/

/-- C3 (code_bug): on the frame sequence `chunk "A"`, `error "boom"`,
`chunk "B"`, the uuid variant's turn ends with content `"AB"`: the thrown
`Error(data.error)` is caught by the same per-frame catch that guards
`JSON.parse`, so the failure message never reaches the turn and the
fragment after the failure is still applied. -/
theorem failure_frame_swallowed_by_parse_catch :
    part002Run 2 c3Msgs
      [ sseRecord (chunkPayload ('A' :: [])),
        sseRecord (errorPayload ('b' :: 'o' :: 'o' :: 'm' :: [])),
        sseRecord (chunkPayload ('B' :: [])) ] c3Follow =
      [ demoUser 1 ('q' :: []),
        { demoPlaceholder 2 with content := 'A' :: 'B' :: [], isLoading := false } ] := by
  exact rfl

/-! ## C7: streams that end without content -/

/-- C7 (code_bug): a metadata-only stream (single `{"done":true}` record,
no fragments) leaves the targeted turn with `isLoading = true`: the done
branch is an empty comment and the `finally` clears only the
component-level flag, so the turn spins forever. -/
theorem metadata_only_stream_leaves_turn_loading :
    part002Run 2 c3Msgs [sseRecord donePayload] c7Follow =
      [ demoUser 1 ('q' :: []),
        { demoPlaceholder 2 with relevantFiles := some ["src/auth.ts"] } ]
    ∧ countLoadingAssistants
        (part002Run 2 c3Msgs [sseRecord donePayload] c7Follow) = 1 := by
  exact ⟨rfl, rfl⟩

/-! ## C5: concurrent submission -/

/-- C5 (code_bug): while the component is loading, a further submission is
a complete no-op (state unchanged, no stream opened); but after a failure
frame only the component-level flag clears, so a second legal submission
leaves TWO assistant turns with `isLoading = true`, violating the
at-most-one-loading-turn invariant. -/
theorem second_submission_after_failure_two_loading_turns :
    tsxHandleSendMessage c5AfterFirst 150 = c5AfterFirst
    ∧ c5AfterFirst.streamsOpened = 1
    ∧ countLoadingAssistants c5AfterFirst.messages = 1
    ∧ countLoadingAssistants c5AfterSecond.messages = 2
    ∧ c5AfterSecond.streamsOpened = 2 := by
  exact ⟨rfl, rfl, rfl, rfl, rfl⟩

/-! ## C8: error statuses and the poller -/

/-- C8 counterexample: the polling tick never reads `status.error`; after a
response with `error = some "boom"` (progress 50) the poller issues a
further status request and is still running. -/
theorem error_response_does_not_stop_poller :
    c8ErrStatus.error.isSome = true
    ∧ (runPoller [c8ErrStatus, c8NextStatus]).requests = 2
    ∧ (runPoller [c8ErrStatus, c8NextStatus]).stopped = false := by
  exact ⟨rfl, rfl, rfl⟩

/-- C8 (corrected): a response with a non-null error is not terminal; as
long as it fails the `progress == 100 && !is_indexing` test the poller
consumes it and keeps going exactly as it would on any other
non-terminal response. -/
theorem poller_continues_past_error_response
    (s : IndexingStatus) (rs : List IndexingStatus)
    (_herr : s.error.isSome = true) (hnd : pollDone s = false) :
    (runPoller (s :: rs)).requests = (runPoller rs).requests + 1
    ∧ (runPoller (s :: rs)).stopped = (runPoller rs).stopped
    ∧ (runPoller (s :: rs)).ready = (runPoller rs).ready
    ∧ (runPoller (s :: rs)).treeFetches = (runPoller rs).treeFetches := by
  simp [runPoller, hnd]

/-- Witness for `poller_continues_past_error_response` at the concrete
erroring status. -/
theorem poller_continues_past_error_response_witness :
    (runPoller [c8ErrStatus, c8NextStatus]).requests =
      (runPoller [c8NextStatus]).requests + 1
    ∧ (runPoller [c8ErrStatus, c8NextStatus]).stopped =
      (runPoller [c8NextStatus]).stopped := by
  have h := poller_continues_past_error_response c8ErrStatus [c8NextStatus] rfl rfl
  exact ⟨h.1, h.2.1⟩

/-! ## C4: records split across transport reads -/

/-- C4 counterexample: the reader loop splits each read independently and
keeps no partial-frame buffer, so a record split across two reads is
dropped entirely (state unchanged), while the same bytes in one read
deliver the fragment. -/
theorem record_split_across_reads_is_lost :
    processReads 2 c4Start [c4ReadA, c4ReadB] = c4Start
    ∧ (processReads 2 c4Start [c4ReadA ++ c4ReadB]).responseText = 'A' :: [] := by
  exact ⟨rfl, rfl⟩

/-! ## C10: service-call totality -/

/-- C10 (confirmed): both service calls absorb every transport failure.
A rejected fetch, a non-2xx response, and a body that fails to parse all
produce the documented fallback records (`is_indexing=false, progress=0`,
error message preserved; `success=false` for the buffered query), and a
healthy response is returned as-is; no path propagates an exception. -/
theorem service_failures_return_fallback_values
    (m : String) (code : Nat)
    (b : Except String IndexingStatus) (v : IndexingStatus)
    (bq : Except String LLMResponse) (vq : LLMResponse) :
    getIndexingStatus (Transport.netError m) =
      { is_indexing := false, progress := 0,
        message := "Failed to get indexing status: " ++ m,
        stats := {}, error := some m }
    ∧ getIndexingStatus (Transport.http false code b) =
      { is_indexing := false, progress := 0,
        message := "Failed to get indexing status: " ++ ("HTTP error " ++ toString code),
        stats := {}, error := some ("HTTP error " ++ toString code) }
    ∧ getIndexingStatus (Transport.http true code (Except.error m)) =
      { is_indexing := false, progress := 0,
        message := "Failed to get indexing status: " ++ m,
        stats := {}, error := some m }
    ∧ getIndexingStatus (Transport.http true code (Except.ok v)) = v
    ∧ queryCode (Transport.netError m) =
      { success := false, response := "", error := some m }
    ∧ queryCode (Transport.http false code bq) =
      { success := false, response := "",
        error := some ("HTTP error " ++ toString code) }
    ∧ queryCode (Transport.http true code (Except.error m)) =
      { success := false, response := "", error := some m }
    ∧ queryCode (Transport.http true code (Except.ok vq)) = vq := by
  exact ⟨rfl, rfl, rfl, rfl, rfl, rfl, rfl, rfl⟩

/-! ## C2: the poller's terminal condition -/

/-- C2 (confirmed): over any response sequence, the poller stops exactly
when some response passes `progress == 100 && !is_indexing`; it consumes
responses up to and including the first such one (no extra ticks), every
consumed response is republished in order, and exactly on the terminal
response one file-tree fetch fires and the phase becomes READY; with no
terminal response it consumes everything, fetches nothing and stays in
INDEXING. -/
theorem poller_stops_iff_completion_signal (rs : List IndexingStatus) :
    ((runPoller rs).stopped = rs.any pollDone)
    ∧ (rs.any pollDone = true →
        (runPoller rs).requests = rs.findIdx pollDone + 1
        ∧ (runPoller rs).published = rs.take (rs.findIdx pollDone + 1)
        ∧ (runPoller rs).treeFetches = 1
        ∧ (runPoller rs).ready = true)
    ∧ (rs.any pollDone = false →
        (runPoller rs).requests = rs.length
        ∧ (runPoller rs).published = rs
        ∧ (runPoller rs).treeFetches = 0
        ∧ (runPoller rs).ready = false) := by
  induction rs with
  | nil =>
    refine ⟨rfl, ?_, ?_⟩
    · intro h
      simp at h
    · intro h
      exact ⟨rfl, rfl, rfl, rfl⟩
  | cons s rest ih =>
    by_cases hd : pollDone s
    · refine ⟨?_, ?_, ?_⟩
      · simp [runPoller, hd]
      · intro h
        simp [runPoller, hd, List.findIdx_cons]
      · intro h
        simp [hd] at h
    · refine ⟨?_, ?_, ?_⟩
      · simp [runPoller, hd, ih.1]
      · intro h
        have hrest : rest.any pollDone = true := by
          simpa [hd] using h
        obtain ⟨h1, h2, h3, h4⟩ := ih.2.1 hrest
        simp [runPoller, hd, List.findIdx_cons, h1, h2, h3, h4]
      · intro h
        have hrest : rest.any pollDone = false := by
          simpa [hd] using h
        obtain ⟨h1, h2, h3, h4⟩ := ih.2.2 hrest
        simp [runPoller, hd, h1, h2, h3, h4]

/-- Witness for `poller_stops_iff_completion_signal`: on the sequence
`[progress 40, progress 100 done]` the poller makes exactly 2 requests,
publishes both responses, fetches the tree once and becomes READY. -/
theorem poller_stops_iff_completion_signal_witness :
    (runPoller [c2Mid, c2Done]).requests = 2
    ∧ (runPoller [c2Mid, c2Done]).published = [c2Mid, c2Done]
    ∧ (runPoller [c2Mid, c2Done]).treeFetches = 1
    ∧ (runPoller [c2Mid, c2Done]).ready = true
    ∧ (runPoller [c2Mid, c2Done]).stopped = true := by
  have h := (poller_stops_iff_completion_signal [c2Mid, c2Done]).2.1 rfl
  obtain ⟨h1, h2, h3, h4⟩ := h
  rw [show ([c2Mid, c2Done].findIdx pollDone) = 1 from rfl] at h1 h2
  exact ⟨h1, h2, h3, h4, (poller_stops_iff_completion_signal [c2Mid, c2Done]).1⟩

/-! ## C6: malformed-frame leniency -/

/-- A malformed frame is a no-op for the reader loop and decodes to no
event: the per-frame `try`/`catch` swallows the parse failure. -/
theorem processLine_malformed (tid : Nat) (st : StreamState) (f : Str)
    (h : isMalformedFrame f = true) :
    processLine tid st f = st ∧ decodeFrame f = none := by
  unfold isMalformedFrame at h
  cases hd : dataPayload f with
  | none => rw [hd] at h; exact absurd h (by simp)
  | some payload =>
    rw [hd] at h
    simp only [Option.isNone_iff_eq_none] at h
    cases hp : jsonParse payload with
    | none => simp [processLine, decodeFrame, hd, hp]
    | some v => rw [hp] at h; exact absurd h (by simp)

/-- C6 (confirmed): interleaving malformed frames among valid ones changes
nothing: the reader loop reaches the same state as if the malformed frames
were absent (no early termination, no lost later frames), and the decoded
event sequence is exactly that of the valid frames, in their original
order. -/
theorem malformed_frames_are_skipped_losslessly
    (tid : Nat) (st : StreamState) (fs : List Str) :
    processLines tid st fs =
      processLines tid st (fs.filter fun f => !(isMalformedFrame f))
    ∧ fs.filterMap decodeFrame =
      (fs.filter fun f => !(isMalformedFrame f)).filterMap decodeFrame := by
  induction fs generalizing st with
  | nil => exact ⟨rfl, rfl⟩
  | cons f rest ih =>
    by_cases hm : isMalformedFrame f = true
    · obtain ⟨hst, hev⟩ := processLine_malformed tid st f hm
      constructor
      · calc processLines tid st (f :: rest)
            = processLines tid (processLine tid st f) rest := rfl
          _ = processLines tid st rest := by rw [hst]
          _ = processLines tid st (rest.filter fun f => !(isMalformedFrame f)) :=
              (ih st).1
          _ = processLines tid st ((f :: rest).filter fun f => !(isMalformedFrame f)) := by
              simp [List.filter_cons, hm]
      · calc (f :: rest).filterMap decodeFrame
            = rest.filterMap decodeFrame := by simp [List.filterMap_cons, hev]
          _ = (rest.filter fun f => !(isMalformedFrame f)).filterMap decodeFrame :=
              (ih st).2
          _ = ((f :: rest).filter fun f => !(isMalformedFrame f)).filterMap decodeFrame := by
              simp [List.filter_cons, hm]
    · constructor
      · calc processLines tid st (f :: rest)
            = processLines tid (processLine tid st f) rest := rfl
          _ = processLines tid (processLine tid st f)
                (rest.filter fun f => !(isMalformedFrame f)) :=
              (ih (processLine tid st f)).1
          _ = processLines tid st ((f :: rest).filter fun f => !(isMalformedFrame f)) := by
              simp [List.filter_cons, hm, processLines]
      · calc (f :: rest).filterMap decodeFrame
            = (decodeFrame f).toList ++ rest.filterMap decodeFrame := by
              cases he : decodeFrame f <;> simp [List.filterMap_cons, he]
          _ = (decodeFrame f).toList ++
                (rest.filter fun f => !(isMalformedFrame f)).filterMap decodeFrame := by
              rw [(ih st).2]
          _ = ((f :: rest).filter fun f => !(isMalformedFrame f)).filterMap decodeFrame := by
              cases he : decodeFrame f <;>
                simp [List.filter_cons, hm, List.filterMap_cons, he]

/-! ## C4: reads aligned on record boundaries -/

/-- Unfolding of `splitBlank` on a head that is not a newline. -/
theorem splitBlank_cons_ne (c : Char) (l : Str) (hc : c ≠ '\n') :
    splitBlank (c :: l) = consHead c (splitBlank l) := by
  cases l with
  | nil => simp [splitBlank, hc]
  | cons c2 l2 => simp [splitBlank, hc]

/-- Splitting a text with no newlines followed by a separator peels off the
text as the first group. -/
theorem splitBlank_no_nl_append (a b : Str) (h : ∀ c ∈ a, c ≠ '\n') :
    splitBlank (a ++ '\n' :: '\n' :: b) = a :: splitBlank b := by
  induction a with
  | nil => simp [splitBlank]
  | cons c a ih =>
    have hc : c ≠ '\n' := h c (by simp)
    rw [List.cons_append, splitBlank_cons_ne c _ hc,
      ih (fun d hd => h d (by simp [hd]))]
    rfl

/-- The empty line left by a trailing separator is a no-op for the loop. -/
theorem processLine_nil (tid : Nat) (st : StreamState) :
    processLine tid st [] = st := rfl

/-- Processing a read made of complete records is processing their frame
lines in order. -/
theorem processRead_recordsRead (tid : Nat) (ps : List Str)
    (hp : ∀ p ∈ ps, ∀ c ∈ p, c ≠ '\n') (st : StreamState) :
    processRead tid st (recordsRead ps) =
      processLines tid st (ps.map fun p => dataPrefix ++ p) := by
  induction ps generalizing st with
  | nil => rfl
  | cons p ps ih =>
    have hsplit : splitBlank (recordsRead (p :: ps)) =
        (dataPrefix ++ p) :: splitBlank (recordsRead ps) := by
      have he : recordsRead (p :: ps) =
          (dataPrefix ++ p) ++ '\n' :: '\n' :: recordsRead ps := by
        simp [recordsRead, sseRecord, recordSep]
      rw [he, splitBlank_no_nl_append]
      intro c hc
      rcases List.mem_append.mp hc with h1 | h2
      · fin_cases h1 <;> decide
      · exact hp p (by simp) c h2
    unfold processRead
    rw [hsplit]
    show processLines tid (processLine tid st (dataPrefix ++ p)) (splitBlank (recordsRead ps)) =
      processLines tid st ((p :: ps).map fun p => dataPrefix ++ p)
    rw [show processLines tid (processLine tid st (dataPrefix ++ p)) (splitBlank (recordsRead ps)) =
        processRead tid (processLine tid st (dataPrefix ++ p)) (recordsRead ps) from rfl]
    rw [ih (fun q hq => hp q (by simp [hq]))]
    rfl

/-- C4 (corrected): the reader loop holds no partial-frame buffer, but as
long as every transport read ends on a record boundary (each read is a
concatenation of complete `data: <payload>\n\n` records), splitting the
record stream across reads in any such way yields exactly the same final
state as receiving everything in one read. -/
theorem boundary_aligned_reads_decode_like_unsplit
    (tid : Nat) (st : StreamState) (pss : List (List Str))
    (hp : ∀ p ∈ pss.flatten, ∀ c ∈ p, c ≠ '\n') :
    processReads tid st (pss.map recordsRead) =
      processRead tid st (recordsRead pss.flatten) := by
  induction pss generalizing st with
  | nil => rfl
  | cons ps pss ih =>
    have hps : ∀ p ∈ ps, ∀ c ∈ p, c ≠ '\n' := fun p hq => hp p (by simp [hq])
    have hrest : ∀ p ∈ pss.flatten, ∀ c ∈ p, c ≠ '\n' :=
      fun p hq => hp p (by simp [hq])
    have hall : ∀ p ∈ (ps ++ pss.flatten), ∀ c ∈ p, c ≠ '\n' := by
      intro p hq
      rcases List.mem_append.mp hq with h1 | h2
      · exact hps p h1
      · exact hrest p h2
    show processReads tid (processRead tid st (recordsRead ps)) (pss.map recordsRead) =
      processRead tid st (recordsRead ((ps :: pss).flatten))
    rw [ih (processRead tid st (recordsRead ps)) hrest]
    rw [show ((ps :: pss).flatten : List Str) = ps ++ pss.flatten from rfl]
    rw [processRead_recordsRead tid (ps ++ pss.flatten) hall st,
      processRead_recordsRead tid pss.flatten hrest,
      processRead_recordsRead tid ps hps st]
    simp [processLines, List.map_append, List.foldl_append]

/-- Witness for `boundary_aligned_reads_decode_like_unsplit`: two reads,
one record each (`{"chunk":"Hi"}` then `{"done":true}`), decode exactly
like the single concatenated read. -/
theorem boundary_aligned_reads_decode_like_unsplit_witness :
    processReads 2 c4Start
        ([[chunkPayload ('H' :: 'i' :: [])], [donePayload]].map recordsRead) =
      processRead 2 c4Start
        (recordsRead ([[chunkPayload ('H' :: 'i' :: [])], [donePayload]] : List (List Str)).flatten) := by
  exact boundary_aligned_reads_decode_like_unsplit 2 c4Start
    [[chunkPayload ('H' :: 'i' :: [])], [donePayload]] (by decide)

/-! ## C9: fragment ordering -/


/-- A plain string terminated by a quote parses back to itself. -/
theorem parseStringBody_plain (s : Str) (tail : Str) (h : PlainStr s) :
    parseStringBody (s ++ '"' :: tail) = some (s, tail) := by
  induction s with
  | nil => simp [parseStringBody.eq_def]
  | cons c cs ih =>
    obtain ⟨h1, h2, h3⟩ := h c (by simp)
    have ih2 := ih (fun d hd => h d (by simp [hd]))
    rw [List.cons_append, parseStringBody.eq_def]
    simp only []
    rw [if_neg h1, if_neg h2, if_neg h3, ih2]
    rfl

/-- Scanning the concrete key `chunk"` peels it off whatever follows. -/
theorem psb_chunkKey (r : Str) :
    parseStringBody ('c' :: 'h' :: 'u' :: 'n' :: 'k' :: '"' :: r) =
      some ('c' :: 'h' :: 'u' :: 'n' :: 'k' :: [], r) := by
  simp [parseStringBody.eq_def]

/-- `skipWs` is the identity on a brace-headed string. -/
theorem skipWs_brace (r : Str) : skipWs ('{' :: r) = '{' :: r := rfl

/-- `skipWs` is the identity on a quote-headed string. -/
theorem skipWs_quote (r : Str) : skipWs ('"' :: r) = '"' :: r := rfl

/-- `skipWs` is the identity on a colon-headed string. -/
theorem skipWs_colon (r : Str) : skipWs (':' :: r) = ':' :: r := rfl

/-- `skipWs` is the identity on a closing-brace-headed string. -/
theorem skipWs_closeBrace (r : Str) : skipWs ('}' :: r) = '}' :: r := rfl

set_option maxHeartbeats 2000000 in
/-- The value parser on `{"chunk":"<s>"}` for a plain `s`, with any fuel of
the shape `n + 2`. -/
theorem parseVal_chunkPayload (n : Nat) (s : Str) (h : PlainStr s) :
    parseVal (n + 1 + 1) (chunkPayload s) =
      some (JVal.obj [(('c' :: 'h' :: 'u' :: 'n' :: 'k' :: []), JVal.str s)], []) := by
  have hs : parseStringBody (s ++ '"' :: '}' :: []) = some (s, '}' :: []) :=
    parseStringBody_plain s ('}' :: []) h
  rw [chunkPayload, parseVal.eq_def]
  simp only [skipWs_brace, skipWs_quote]
  simp only [parseObjWith, parseMemberWith, psb_chunkKey, skipWs_quote, skipWs_colon]
  rw [parseVal.eq_def]
  simp only [skipWs_quote]
  simp [hs, parseObjRestWith.eq_def, skipWs_closeBrace]

/-- `JSON.parse` on a well-formed chunk record payload. -/
theorem jsonParse_chunkPayload (s : Str) (h : PlainStr s) :
    jsonParse (chunkPayload s) =
      some (JVal.obj [(('c' :: 'h' :: 'u' :: 'n' :: 'k' :: []), JVal.str s)]) := by
  have hl : (chunkPayload s).length = s.length + 12 := by
    simp [chunkPayload]
  unfold jsonParse
  rw [hl]
  have hv := parseVal_chunkPayload (s.length + 12) s h
  rw [show s.length + 12 + 2 = s.length + 12 + 1 + 1 by omega]
  rw [hv]
  rfl

/-- One well-formed nonempty chunk frame extends `responseText` and
rewrites the target turn by id. -/
theorem processLine_chunkFrame (tid : Nat) (st : StreamState) (s : Str)
    (h : PlainStr s) (hne : s ≠ []) :
    processLine tid st (mkChunkFrame s) =
      { responseText := st.responseText ++ s,
        msgs := applyChunkById st.msgs tid (st.responseText ++ s) } := by
  have hd : dataPayload (mkChunkFrame s) = some (chunkPayload s) := rfl
  have hp := jsonParse_chunkPayload s h
  have hg : jGet (JVal.obj [(('c' :: 'h' :: 'u' :: 'n' :: 'k' :: []), JVal.str s)])
      ('c' :: 'h' :: 'u' :: 'n' :: 'k' :: []) = some (JVal.str s) := rfl
  have hne2 : s.isEmpty = false := by
    cases s with
    | nil => exact absurd rfl hne
    | cons a l => rfl
  simp [processLine, hd, hp, hg, jTruthy, hne2, jOptToString, jsToString]

/-- Two successive id-addressed content rewrites collapse to the last. -/
theorem applyChunkById_comp (msgs : List ChatMsg) (tid : Nat) (a b : Str) :
    applyChunkById (applyChunkById msgs tid a) tid b = applyChunkById msgs tid b := by
  unfold applyChunkById
  rw [List.map_map]
  apply List.map_congr_left
  intro m _
  by_cases hm : m.id = tid
  · simp [Function.comp, hm]
  · simp [Function.comp, hm]

/-- Folding a sequence of well-formed nonempty chunk frames appends their
texts in order, both to `responseText` and to the target turn. -/
theorem processLines_chunkFrames (ts : List Str)
    (h : ∀ t ∈ ts, PlainStr t ∧ t ≠ []) (tid : Nat) (st : StreamState) :
    processLines tid st (ts.map mkChunkFrame) =
      { responseText := st.responseText ++ ts.flatten,
        msgs := if ts.isEmpty then st.msgs
                else applyChunkById st.msgs tid (st.responseText ++ ts.flatten) } := by
  induction ts generalizing st with
  | nil => simp [processLines]
  | cons t ts ih =>
    obtain ⟨hpl, hne⟩ := h t (by simp)
    have hstep := processLine_chunkFrame tid st t hpl hne
    show processLines tid (processLine tid st (mkChunkFrame t)) (ts.map mkChunkFrame) = _
    rw [hstep, ih (fun u hu => h u (by simp [hu]))]
    cases ts with
    | nil => simp
    | cons t2 ts2 => simp [applyChunkById_comp, List.append_assoc]

/-- C9 (confirmed): the stream `{"chunk":"Hel"}`, `{"chunk":"lo"}`,
`{"done":true}` leaves the target turn with content `"Hello"` and
`isLoading = false`; in general a sequence of chunk frames is applied in
arrival order, each fragment's text appended strictly after all earlier
ones (the final content is the in-order concatenation). -/
theorem fragments_append_in_arrival_order :
    processReads 2 c9Start
        [ sseRecord (chunkPayload ('H' :: 'e' :: 'l' :: [])),
          sseRecord (chunkPayload ('l' :: 'o' :: [])),
          sseRecord donePayload ] =
      { responseText := 'H' :: 'e' :: 'l' :: 'l' :: 'o' :: [],
        msgs := [ demoUser 1 ('q' :: []),
                  { demoPlaceholder 2 with
                      content := 'H' :: 'e' :: 'l' :: 'l' :: 'o' :: [],
                      isLoading := false } ] }
    ∧ ∀ (ts : List Str), (∀ t ∈ ts, PlainStr t ∧ t ≠ []) →
        ∀ (tid : Nat) (st : StreamState),
        processLines tid st (ts.map mkChunkFrame) =
          { responseText := st.responseText ++ ts.flatten,
            msgs := if ts.isEmpty then st.msgs
                    else applyChunkById st.msgs tid (st.responseText ++ ts.flatten) } :=
  ⟨rfl, processLines_chunkFrames⟩

/-- Witness for `fragments_append_in_arrival_order` at the concrete
fragment list `["Hel", "lo"]`. -/
theorem fragments_append_in_arrival_order_witness :
    processLines 2 c9Start
        ([('H' :: 'e' :: 'l' :: []), ('l' :: 'o' :: [])].map mkChunkFrame) =
      { responseText :=
          c9Start.responseText ++
            ([('H' :: 'e' :: 'l' :: []), ('l' :: 'o' :: [])] : List Str).flatten,
        msgs := if ([('H' :: 'e' :: 'l' :: []), ('l' :: 'o' :: [])] : List Str).isEmpty
                then c9Start.msgs
                else applyChunkById c9Start.msgs 2
                  (c9Start.responseText ++
                    ([('H' :: 'e' :: 'l' :: []), ('l' :: 'o' :: [])] : List Str).flatten) } :=
  fragments_append_in_arrival_order.2
    [('H' :: 'e' :: 'l' :: []), ('l' :: 'o' :: [])] (by decide) 2 c9Start
